import Mathlib

/-!
Shallow embedding of the Foxglove "Orientation Panel 2D" extension: the
quaternion extractor, the quaternion-to-Euler converter, the panel-state
reducers of `Settings.tsx`, the settings-tree projection, and the
message-cache / indicator-render update cycle of `OrientationPanel2D`.
-/

namespace OrientationPanel2D

/-! ## JS value model for messages and quaternions -/

/-- One JS field of a quaternion-like object: `undef` models a missing field
(JS `undefined`), `num r` a number-typed value, `nonNum` a value that is
defined but not of number type (string, object, boolean, ...).  Float NaN
payloads are outside the model's domain. -/
inductive JSField where
  | undef
  | num (r : ℝ)
  | nonNum

/-- Whether the field is defined, i.e. the JS test `field !== undefined`. -/
def JSField.isDef : JSField → Bool
  | .undef => false
  | _ => true

/-- Whether the JS test `typeof field === "number"` holds. -/
def JSField.isNum : JSField → Bool
  | .num _ => true
  | _ => false

/-- A JS object seen through its quaternion fields `x, y, z, w`; any JS object
can be viewed this way (fields it lacks are `undef`). -/
structure QuatView where
  x : JSField
  y : JSField
  z : JSField
  w : JSField

/-- View of a `pose.pose` object: only its `orientation` field is read. -/
structure InnerPoseView where
  orientation : Option QuatView

/-- View of a `pose` object: the code reads `pose.orientation` and
`pose.pose.orientation`.  An `Option` field is `none` when the JS value is
absent or falsy (the code tests these fields for truthiness, and optional
chaining makes a missing intermediate object come out `undefined`). -/
structure PoseView where
  orientation : Option QuatView
  pose : Option InnerPoseView

/-- View of a `transform` object: only its `rotation` field is read. -/
structure TransformView where
  rotation : Option QuatView

/-- A delivered message object, seen through exactly the fields that
`extractQuaternion` probes. -/
structure JSMessage where
  x : JSField
  y : JSField
  z : JSField
  w : JSField
  orientation : Option QuatView
  pose : Option PoseView
  rotation : Option QuatView
  transform : Option TransformView

/-- An arbitrary JS message value: `none` models `null` / `undefined` /
non-object payloads, rejected by the `!message || typeof message !== "object"`
guard. -/
def JSVal := Option JSMessage

/-- Model of `extractQuaternion(message)`: the six-shape probe of the source, in its
exact order.  Shape 1 (`msg.x !== undefined && msg.y !== undefined &&
msg.z !== undefined && msg.w !== undefined`) returns the message itself viewed
as a quaternion; shapes 2-6 are truthiness tests returning the tested field. -/
def extractQuaternion (message : Option JSMessage) : Option QuatView :=
  match message with
  | none => none
  | some msg =>
    if msg.x.isDef && msg.y.isDef && msg.z.isDef && msg.w.isDef then
      some { x := msg.x, y := msg.y, z := msg.z, w := msg.w }
    else match msg.orientation with
    | some q => some q
    | none =>
      match msg.pose.bind (fun p => p.orientation) with
      | some q => some q
      | none =>
        match (msg.pose.bind (fun p => p.pose)).bind (fun pp => pp.orientation) with
        | some q => some q
        | none =>
          match msg.rotation with
          | some q => some q
          | none =>
            match msg.transform.bind (fun t => t.rotation) with
            | some q => some q
            | none => none

/-! ## Euler conversion -/

/-- Euler angles in degrees, as produced by `quaternionToEuler`.  A component
is `none` when the JS computation would produce NaN (a non-numeric `x`/`y`/`z`
feeding the arithmetic). -/
structure Orientation where
  roll : Option ℝ
  pitch : Option ℝ
  yaw : Option ℝ

/-- Read a quaternion component for arithmetic: a non-number participates in
JS arithmetic as NaN, modelled by `none`. -/
def jnum : JSField → Option ℝ
  | .num r => some r
  | _ => none

/-- JS `+` with NaN propagation. -/
def oadd : Option ℝ → Option ℝ → Option ℝ
  | some a, some b => some (a + b)
  | _, _ => none

/-- JS `-` with NaN propagation. -/
def osub : Option ℝ → Option ℝ → Option ℝ
  | some a, some b => some (a - b)
  | _, _ => none

/-- JS `*` with NaN propagation. -/
def omul : Option ℝ → Option ℝ → Option ℝ
  | some a, some b => some (a * b)
  | _, _ => none

/-- Model of `Math.atan2(y, x)` for real arguments. -/
noncomputable def atan2 (y x : ℝ) : ℝ :=
  if 0 < x then Real.arctan (y / x)
  else if x < 0 then
    (if 0 ≤ y then Real.arctan (y / x) + Real.pi else Real.arctan (y / x) - Real.pi)
  else if 0 < y then Real.pi / 2
  else if y < 0 then -(Real.pi / 2)
  else 0

/-- Lifting of `Math.atan2` with NaN propagation. -/
noncomputable def oatan2 : Option ℝ → Option ℝ → Option ℝ
  | some y, some x => some (atan2 y x)
  | _, _ => none

/-- Lifting of `Math.asin` with NaN propagation. -/
noncomputable def oasin : Option ℝ → Option ℝ
  | some a => some (Real.arcsin a)
  | none => none

/-- Lifting of `Math.sign` with NaN propagation. -/
noncomputable def osign : Option ℝ → Option ℝ
  | some a => some (Real.sign a)
  | none => none

/-- The JS test `Math.abs(sinp) >= 1`; false on NaN, as in JS. -/
def absGeOne : Option ℝ → Prop
  | some a => 1 ≤ |a|
  | none => False

noncomputable instance (o : Option ℝ) : Decidable (absGeOne o) :=
  match o with
  | some a => inferInstanceAs (Decidable (1 ≤ |a|))
  | none => isFalse (fun h => h)

/-- Model of `quaternionToEuler(quaternion)`: the converter of the source.  The
`!quaternion || typeof quaternion.w !== "number"` guard returns all-zero
angles; otherwise the roll/pitch/yaw formulas are computed and converted to
degrees. -/
noncomputable def quaternionToEuler (quaternion : Option QuatView) : Orientation :=
  match quaternion with
  | none => { roll := some 0, pitch := some 0, yaw := some 0 }
  | some quat =>
    match quat.w with
    | JSField.num w =>
      let q0 : Option ℝ := some w
      let q1 : Option ℝ := jnum quat.x
      let q2 : Option ℝ := jnum quat.y
      let q3 : Option ℝ := jnum quat.z
      let sinr_cosp := omul (some 2) (oadd (omul q0 q1) (omul q2 q3))
      let cosr_cosp := osub (some 1) (omul (some 2) (oadd (omul q1 q1) (omul q2 q2)))
      let roll := oatan2 sinr_cosp cosr_cosp
      let sinp := omul (some 2) (osub (omul q0 q2) (omul q3 q1))
      let pitch :=
        if absGeOne sinp then omul (osign sinp) (some (Real.pi / 2)) else oasin sinp
      let siny_cosp := omul (some 2) (oadd (omul q0 q3) (omul q1 q2))
      let cosy_cosp := osub (some 1) (omul (some 2) (oadd (omul q2 q2) (omul q3 q3)))
      let yaw := oatan2 siny_cosp cosy_cosp
      let degFactor : Option ℝ := some (180 / Real.pi)
      { roll := omul roll degFactor, pitch := omul pitch degFactor,
        yaw := omul yaw degFactor }
    | _ => { roll := some 0, pitch := some 0, yaw := some 0 }

/-- Whether `quaternionToEuler` executes its `console.warn("Invalid
quaternion:", ...)` line, i.e. its guard `!quaternion || typeof quaternion.w
!== "number"` fires. -/
def quaternionToEulerWarns : Option QuatView → Bool
  | none => true
  | some quat => !quat.w.isNum

/-! ## Panel state and the reducers of Settings.tsx -/

/-- Per-topic configuration (`PanelState["topics"][name]`). -/
structure TopicConfig where
  enabled : Bool
  showRoll : Bool
  showPitch : Bool
  showYaw : Bool
deriving DecidableEq

/-- Global display settings. -/
structure DisplaySettings where
  rollEnabled : Bool
  pitchEnabled : Bool
  yawEnabled : Bool
deriving DecidableEq

/-- The panel state.  JS objects and `Map`s preserve insertion order, so the
`topics` mapping is modelled as an insertion-ordered association list. -/
structure PanelState where
  topics : List (String × TopicConfig)
  displaySettings : DisplaySettings
deriving DecidableEq

/-- Association-list read, modelling `obj[key]` / `map.get(key)`. -/
def alookup {α : Type} : List (String × α) → String → Option α
  | [], _ => none
  | (k', v) :: rest, k => if k' = k then some v else alookup rest k

/-- Association-list write, modelling `{...obj, [key]: v}` / `map.set(key, v)`:
an existing key keeps its position and gets the new value, a new key is
appended at the end. -/
def aset {α : Type} : List (String × α) → String → α → List (String × α)
  | [], k, v => [(k, v)]
  | (k', v') :: rest, k, v =>
    if k' = k then (k, v) :: rest else (k', v') :: aset rest k v

/-- Association-list delete, modelling `map.delete(key)`. -/
def adel {α : Type} : List (String × α) → String → List (String × α)
  | [], _ => []
  | (k', v') :: rest, k => if k' = k then adel rest k else (k', v') :: adel rest k

/-- Modelling `map.has(key)`. -/
def ahas {α : Type} (l : List (String × α)) (k : String) : Bool :=
  (alookup l k).isSome

/-- Model of `getInitialState()`. -/
def getInitialState : PanelState :=
  { topics := [],
    displaySettings := { rollEnabled := true, pitchEnabled := true, yawEnabled := true } }

/-- Model of `updateTopicStatus(state, topicName, enabled)`: upsert the topic entry,
preserving existing show-flags and defaulting them to `true` otherwise. -/
def updateTopicStatus (state : PanelState) (topicName : String) (enabled : Bool) :
    PanelState :=
  let existingTopic := alookup state.topics topicName
  { state with
    topics := aset state.topics topicName
      { enabled := enabled,
        showRoll := (existingTopic.map (fun t => t.showRoll)).getD true,
        showPitch := (existingTopic.map (fun t => t.showPitch)).getD true,
        showYaw := (existingTopic.map (fun t => t.showYaw)).getD true } }

/-- The three per-topic show-flag names. -/
inductive ShowComponent where
  | showRoll
  | showPitch
  | showYaw
deriving DecidableEq

/-- The JS spread `\x7b...cfg, [component]: b\x7d` for a show component. -/
def setShow (cfg : TopicConfig) : ShowComponent → Bool → TopicConfig
  | .showRoll, b => { cfg with showRoll := b }
  | .showPitch, b => { cfg with showPitch := b }
  | .showYaw, b => { cfg with showYaw := b }

/-- Read one show-flag. -/
def getShow (cfg : TopicConfig) : ShowComponent → Bool
  | .showRoll => cfg.showRoll
  | .showPitch => cfg.showPitch
  | .showYaw => cfg.showYaw

/-- Model of `updateTopicComponentStatus(state, topicName, component, enabled)`:
a no-op when the topic has no config, otherwise overrides that one flag. -/
def updateTopicComponentStatus (state : PanelState) (topicName : String)
    (component : ShowComponent) (enabled : Bool) : PanelState :=
  match alookup state.topics topicName with
  | none => state
  | some cfg =>
    { state with
      topics := aset state.topics topicName (setShow cfg component enabled) }

/-- The three global display-setting names. -/
inductive DisplayComponent where
  | rollEnabled
  | pitchEnabled
  | yawEnabled
deriving DecidableEq

/-- The JS spread `\x7b...ds, [component]: b\x7d` for a display setting. -/
def setDisplay (ds : DisplaySettings) : DisplayComponent → Bool → DisplaySettings
  | .rollEnabled, b => { ds with rollEnabled := b }
  | .pitchEnabled, b => { ds with pitchEnabled := b }
  | .yawEnabled, b => { ds with yawEnabled := b }

/-- Model of `updateDisplaySetting(state, component, enabled)`. -/
def updateDisplaySetting (state : PanelState) (component : DisplayComponent)
    (enabled : Bool) : PanelState :=
  { state with displaySettings := setDisplay state.displaySettings component enabled }

/-- Model of `getEnabledTopics(state)`. -/
def getEnabledTopics (state : PanelState) : List String :=
  (state.topics.filter (fun p => p.2.enabled)).map (fun p => p.1)

/-- Whether a topic currently has an enabled config: the JS test
`state.topics[name]?.enabled`, coerced to a boolean. -/
def enabledIn (p : PanelState) (k : String) : Bool :=
  ((alookup p.topics k).map (fun c => c.enabled)).getD false

/-! ## Partial persisted state and panel initialization -/

/-- A possibly-partial per-topic config, as it may come back from persisted
configuration (`none` = the key is missing). -/
structure PartialTopicConfig where
  enabled : Option Bool
  showRoll : Option Bool
  showPitch : Option Bool
  showYaw : Option Bool
deriving DecidableEq

/-- A possibly-partial displaySettings object. -/
structure PartialDisplaySettings where
  rollEnabled : Option Bool
  pitchEnabled : Option Bool
  yawEnabled : Option Bool
deriving DecidableEq

/-- A possibly-partial panel state, as restored from `context.initialState`.
A missing key and a key explicitly set to `undefined` are both modelled by
`none`. -/
structure PartialPanelState where
  topics : Option (List (String × PartialTopicConfig))
  displaySettings : Option PartialDisplaySettings
deriving DecidableEq

/-- The `displaySettings` object of `getInitialState()`, seen as a
fully-defined partial object. -/
def initialDisplaySettingsP : PartialDisplaySettings :=
  { rollEnabled := some true, pitchEnabled := some true, yawEnabled := some true }

/-- The panel's `useState` initializer:
`{...getInitialState(), ...savedState, topics: {...getInitialState().topics,
...(savedState?.topics ?? {})}}`.  Top-level spreading is shallow: a saved
`displaySettings` object replaces the default wholesale; the default `topics`
object is empty, so the one-level topics merge yields exactly the saved
entries. -/
def initPanelState (savedState : Option PartialPanelState) : PartialPanelState :=
  { topics := some ((savedState.bind (fun s => s.topics)).getD []),
    displaySettings :=
      some ((savedState.bind (fun s => s.displaySettings)).getD initialDisplaySettingsP) }

/-- Modelled from the spec: the deep merge of the saved partial state over the
defaults, "tolerant of missing nested keys", in which every field of the
result is defined (missing displaySettings booleans fall back to the defaults,
missing show-flags to `true`, missing `enabled` to `false`).  This definition
follows the claim's words and exists to be compared with `initPanelState`,
which is what the code actually does. -/
def specDeepMergedInit (savedState : Option PartialPanelState) : PartialPanelState :=
  { topics :=
      some (((savedState.bind (fun s => s.topics)).getD []).map
        (fun p =>
          (p.1,
            { enabled := some (p.2.enabled.getD false),
              showRoll := some (p.2.showRoll.getD true),
              showPitch := some (p.2.showPitch.getD true),
              showYaw := some (p.2.showYaw.getD true) }))),
    displaySettings :=
      some
        { rollEnabled :=
            some (((savedState.bind (fun s => s.displaySettings)).bind
              (fun d => d.rollEnabled)).getD true),
          pitchEnabled :=
            some (((savedState.bind (fun s => s.displaySettings)).bind
              (fun d => d.pitchEnabled)).getD true),
          yawEnabled :=
            some (((savedState.bind (fun s => s.displaySettings)).bind
              (fun d => d.yawEnabled)).getD true) } }

/-! ## Settings tree projection -/

/-- A topic from the host's catalog. -/
structure Topic where
  name : String
  schemaName : String

/-- The three boolean fields of a topic's "Topic Settings" child node. -/
structure TopicSettingsFields where
  showRoll : Bool
  showPitch : Bool
  showYaw : Bool
deriving DecidableEq

/-- One topic node of the settings tree. -/
structure SettingsTopicNode where
  label : String
  visible : Bool
  topicSettings : Option TopicSettingsFields
deriving DecidableEq

/-- The settings tree: the three general boolean field values (an `Option`
because `state.displaySettings.rollEnabled` can be `undefined` on a partial
state) and the topic nodes. -/
structure SettingsTree where
  rollEnabledValue : Option Bool
  pitchEnabledValue : Option Bool
  yawEnabledValue : Option Bool
  topicNodes : List (String × SettingsTopicNode)
deriving DecidableEq

/-- Build one topic's settings node.  `state.topics[topic.name]` throws a
TypeError (modelled as `Except.error ()`) when `state.topics` is `undefined`;
the per-entry accesses use `?.` and `??` and are total. -/
def buildTopicNode (state : PartialPanelState) (topic : Topic) :
    Except Unit SettingsTopicNode :=
  match state.topics with
  | none => Except.error ()
  | some tmap =>
    let isEnabled := ((alookup tmap topic.name).bind (fun c => c.enabled)).getD false
    Except.ok
      { label := topic.name,
        visible := isEnabled,
        topicSettings :=
          if isEnabled then
            some
              { showRoll := ((alookup tmap topic.name).bind (fun c => c.showRoll)).getD true,
                showPitch := ((alookup tmap topic.name).bind (fun c => c.showPitch)).getD true,
                showYaw := ((alookup tmap topic.name).bind (fun c => c.showYaw)).getD true }
          else none }

/-- The `transform(orientationTopics, ...)` loop of `buildSettingsTree`,
writing `result[topic.name] = node` in candidate order. -/
def buildTopicNodesLoop (state : PartialPanelState) :
    List Topic → List (String × SettingsTopicNode) →
      Except Unit (List (String × SettingsTopicNode))
  | [], acc => Except.ok acc
  | t :: rest, acc =>
    match buildTopicNode state t with
    | Except.error e => Except.error e
    | Except.ok node => buildTopicNodesLoop state rest (aset acc t.name node)

/-- Model of `buildSettingsTree(state, orientationTopics)`: the topics loop runs first,
then the `general` section reads `state.displaySettings.rollEnabled` (and the
other two), which throws when `state.displaySettings` is `undefined`. -/
def buildSettingsTree (state : PartialPanelState) (orientationTopics : List Topic) :
    Except Unit SettingsTree :=
  match buildTopicNodesLoop state orientationTopics [] with
  | Except.error e => Except.error e
  | Except.ok nodes =>
    match state.displaySettings with
    | none => Except.error ()
    | some ds =>
      Except.ok
        { rollEnabledValue := ds.rollEnabled,
          pitchEnabledValue := ds.pitchEnabled,
          yawEnabledValue := ds.yawEnabled,
          topicNodes := nodes }

/-! ## The indicator render loop -/

/-- The constant `MAX_TOPICS` of the source. -/
def MAX_TOPICS : Nat := 9

/-- The array `CONFIG.messageColors`: exactly eight CSS color strings. -/
def messageColors : List String :=
  ["var(--color-message-1-transparent, rgba(255, 0, 0, 0.75))",
   "var(--color-message-2-transparent, rgba(0, 255, 0, 0.75))",
   "var(--color-message-3-transparent, rgba(0, 0, 255, 0.75))",
   "var(--color-message-4-transparent, rgba(255, 255, 0, 0.75))",
   "var(--color-message-5-transparent, rgba(0, 255, 255, 0.75))",
   "var(--color-message-6-transparent, rgba(255, 0, 255, 0.75))",
   "var(--color-message-7-transparent, rgba(255, 128, 0, 0.75))",
   "var(--color-message-8-transparent, rgba(128, 0, 255, 0.75))"]

/-- The array `CONFIG.colorClasses`: exactly eight CSS class names. -/
def colorClasses : List String :=
  ["message-1", "message-2", "message-3", "message-4",
   "message-5", "message-6", "message-7", "message-8"]

/-- What the render loop assigns to one drawn source: its display index and
the palette lookups `CONFIG.messageColors[topicIndex]` /
`CONFIG.colorClasses[topicIndex]` (a JS out-of-range index reads `undefined`,
modelled `none`). -/
structure DrawnSource where
  topicName : String
  displayIndex : Nat
  colorValue : Option String
  colorClass : Option String
  angles : Orientation

/-- The indicator loop of the visual refresh: iterate the orientations cache
in order with a running `topicIndex`; skip (but keep iterating) once
`topicIndex >= MAX_TOPICS`; skip entries with no enabled config; otherwise
draw with the current index and increment it. -/
def renderAssignLoop (topics : List (String × TopicConfig)) :
    List (String × Orientation) → Nat → List DrawnSource
  | [], _ => []
  | (topicName, o) :: rest, topicIndex =>
    if MAX_TOPICS ≤ topicIndex then
      renderAssignLoop topics rest topicIndex
    else
      match alookup topics topicName with
      | none => renderAssignLoop topics rest topicIndex
      | some cfg =>
        if cfg.enabled then
          { topicName := topicName, displayIndex := topicIndex,
            colorValue := messageColors.get? topicIndex,
            colorClass := colorClasses.get? topicIndex,
            angles := o } :: renderAssignLoop topics rest (topicIndex + 1)
        else
          renderAssignLoop topics rest topicIndex

/-- The whole per-refresh index/color assignment, starting at `topicIndex = 0`. -/
def renderIndicatorAssignments (orientations : List (String × Orientation))
    (topics : List (String × TopicConfig)) : List DrawnSource :=
  renderAssignLoop topics orientations 0

/-! ## The message-cache update cycle -/

/-- The live caches of the panel component: the panel state plus the
`messages` and `orientations` maps (JS `Map`s, insertion-ordered). -/
structure CacheState where
  panel : PanelState
  messages : List (String × JSVal)
  orientations : List (String × Orientation)

/-- Model of `onRender`: copy the message map and insert each frame message whose topic
currently has an enabled config (`state.topics[msg.topic]?.enabled`), in the
frame's delivery order. -/
def deliverMessages (panel : PanelState) (messages : List (String × JSVal))
    (frame : List (String × JSVal)) : List (String × JSVal) :=
  frame.foldl
    (fun acc entry =>
      if enabledIn panel entry.1 then aset acc entry.1 entry.2 else acc)
    messages

/-- The message-processing effect: for every cached message in map order,
extract a quaternion; when extraction fails keep the previous Orientation
(`if (!quaternion) return`), otherwise overwrite the topic's Orientation with
the converted value. -/
noncomputable def processMessages (messages : List (String × JSVal))
    (orientations : List (String × Orientation)) : List (String × Orientation) :=
  messages.foldl
    (fun acc entry =>
      match extractQuaternion entry.2 with
      | none => acc
      | some q => aset acc entry.1 (quaternionToEuler (some q)))
    orientations

/-- One delivery batch: update the message cache, then run the
message-processing effect on it. -/
noncomputable def stepDeliver (s : CacheState) (frame : List (String × JSVal)) :
    CacheState :=
  let newMessages := deliverMessages s.panel s.messages frame
  { panel := s.panel, messages := newMessages,
    orientations := processMessages newMessages s.orientations }

/-- Model of `handleTopicEnabledChange(topicName, enabled)`: update the topic's config;
when disabling a topic whose message is cached, also purge its message and
Orientation entries. -/
def handleTopicEnabledChange (s : CacheState) (topicName : String) (enabled : Bool) :
    CacheState :=
  let newPanel := updateTopicStatus s.panel topicName enabled
  if !enabled && ahas s.messages topicName then
    { panel := newPanel,
      messages := adel s.messages topicName,
      orientations := adel s.orientations topicName }
  else
    { panel := newPanel, messages := s.messages, orientations := s.orientations }

/-- The events that can change the caches during the panel's life. -/
inductive PanelStep : CacheState → CacheState → Prop where
  | deliver (s : CacheState) (frame : List (String × JSVal)) :
      PanelStep s (stepDeliver s frame)
  | toggle (s : CacheState) (topicName : String) (enabled : Bool) :
      PanelStep s (handleTopicEnabledChange s topicName enabled)
  | component (s : CacheState) (topicName : String) (c : ShowComponent) (b : Bool) :
      PanelStep s
        { panel := updateTopicComponentStatus s.panel topicName c b,
          messages := s.messages, orientations := s.orientations }
  | display (s : CacheState) (c : DisplayComponent) (b : Bool) :
      PanelStep s
        { panel := updateDisplaySetting s.panel c b,
          messages := s.messages, orientations := s.orientations }

/-- States reachable from panel initialization: an arbitrary restored panel
state with empty caches, closed under the panel's events. -/
inductive Reachable : CacheState → Prop where
  | init (panel : PanelState) :
      Reachable { panel := panel, messages := [], orientations := [] }
  | step {s s' : CacheState} : Reachable s → PanelStep s s' → Reachable s'

/-! ## Association-list lemmas -/

theorem alookup_aset_self {α : Type} (l : List (String × α)) (k : String) (v : α) :
    alookup (aset l k v) k = some v := by
  induction l with
  | nil => simp [aset, alookup]
  | cons p rest ih =>
    by_cases h : p.1 = k
    · simp [aset, alookup, h]
    · simp [aset, alookup, h, ih]

theorem alookup_aset_ne {α : Type} (l : List (String × α)) (k k' : String) (v : α)
    (h : k ≠ k') : alookup (aset l k v) k' = alookup l k' := by
  induction l with
  | nil => simp [aset, alookup, h]
  | cons p rest ih =>
    by_cases hp : p.1 = k
    · simp [aset, alookup, hp, h]
    · by_cases hp' : p.1 = k'
      · simp [aset, alookup, hp, hp', Ne.symm h]
      · simp [aset, alookup, hp, hp', ih]

theorem alookup_adel_self {α : Type} (l : List (String × α)) (k : String) :
    alookup (adel l k) k = none := by
  induction l with
  | nil => simp [adel, alookup]
  | cons p rest ih =>
    by_cases h : p.1 = k
    · simp [adel, h, ih]
    · simp [adel, alookup, h, ih]

theorem alookup_adel_ne {α : Type} (l : List (String × α)) (k k' : String)
    (h : k ≠ k') : alookup (adel l k) k' = alookup l k' := by
  induction l with
  | nil => simp [adel]
  | cons p rest ih =>
    by_cases hp : p.1 = k
    · have hp' : p.1 ≠ k' := by rw [hp]; exact h
      simp [adel, alookup, hp, hp', ih, h]
    · by_cases hp' : p.1 = k'
      · simp [adel, alookup, hp, hp', Ne.symm h]
      · simp [adel, alookup, hp, hp', ih]

theorem ahas_aset {α : Type} (l : List (String × α)) (k k' : String) (v : α) :
    ahas (aset l k v) k' = true ↔ (k' = k ∨ ahas l k' = true) := by
  by_cases h : k = k'
  · subst h
    simp [ahas, alookup_aset_self]
  · rw [ahas, alookup_aset_ne l k k' v h]
    constructor
    · intro hh
      exact Or.inr hh
    · intro hh
      rcases hh with hh | hh
      · exact absurd hh.symm h
      · exact hh

theorem ahas_of_mem {α : Type} (l : List (String × α)) (k : String) (v : α)
    (h : (k, v) ∈ l) : ahas l k = true := by
  induction l with
  | nil => cases h
  | cons p rest ih =>
    rcases List.mem_cons.mp h with h | h
    · cases h
      simp [ahas, alookup]
    · by_cases hp : p.1 = k
      · simp [ahas, alookup, hp]
      · simpa [ahas, alookup, hp] using ih h

theorem alookup_none_of_ahas_false {α : Type} (l : List (String × α)) (k : String)
    (h : ahas l k = false) : alookup l k = none := by
  rw [ahas] at h
  exact Option.not_isSome_iff_eq_none.mp (by rw [h]; exact Bool.false_ne_true)

theorem mem_aset_self {α : Type} (l : List (String × α)) (k : String) (v : α) :
    (k, v) ∈ aset l k v := by
  induction l with
  | nil => simp [aset]
  | cons p rest ih =>
    by_cases hp : p.1 = k
    · simp [aset, hp]
    · simp only [aset, if_neg hp]
      exact List.mem_cons_of_mem _ ih

theorem keys_aset_nodup {α : Type} (l : List (String × α)) (k : String) (v : α)
    (h : (l.map (fun e => e.1)).Nodup) :
    ((aset l k v).map (fun e => e.1)).Nodup := by
  induction l with
  | nil => simp [aset]
  | cons p rest ih =>
    simp only [List.map_cons, List.nodup_cons] at h
    by_cases hp : p.1 = k
    · subst hp
      simpa [aset, List.nodup_cons] using h
    · simp only [aset, if_neg hp, List.map_cons, List.nodup_cons]
      refine ⟨?_, ih h.2⟩
      intro hmem
      rcases List.mem_map.mp hmem with ⟨e, he, hek⟩
      have : e ∈ rest ∨ e = (k, v) := by
        clear h ih hmem
        induction rest with
        | nil =>
          simp [aset] at he
          exact Or.inr he
        | cons q rs ihr =>
          by_cases hq : q.1 = k
          · simp only [aset, if_pos hq] at he
            rcases List.mem_cons.mp he with he | he
            · exact Or.inr he
            · exact Or.inl (List.mem_cons_of_mem _ he)
          · simp only [aset, if_neg hq] at he
            rcases List.mem_cons.mp he with he | he
            · exact Or.inl (by rw [he]; exact List.mem_cons_self _ _)
            · rcases ihr he with hh | hh
              · exact Or.inl (List.mem_cons_of_mem _ hh)
              · exact Or.inr hh
      rcases this with hh | hh
      · exact h.1 (hek ▸ List.mem_map_of_mem (fun e => e.1) hh)
      · exact hp (by rw [hh] at hek; exact hek.symm)

/-! ## Concrete fixtures used by witnesses and counterexamples -/

/-- A display settings value with every axis enabled. -/
def allOnDisplay : DisplaySettings := ⟨true, true, true⟩

/-- A fully-on topic config. -/
def allOnConfig : TopicConfig := ⟨true, true, true, true⟩

/-- A customized topic config (enabled, roll and yaw hidden). -/
def customConfig : TopicConfig := ⟨true, false, true, false⟩

/-- A panel state with one enabled topic "imu". -/
def imuOnState : PanelState := ⟨[("imu", allOnConfig)], allOnDisplay⟩

/-- A panel state with one customized topic "imu". -/
def imuCustomState : PanelState := ⟨[("imu", customConfig)], allOnDisplay⟩

/-- A persisted partial state whose displaySettings holds only rollEnabled. -/
def partialSaved : PartialPanelState := ⟨none, some ⟨some true, none, none⟩⟩

/-! ## Claim C7: updateTopicComponentStatus frame conditions -/

/-- Claim C7: for every state, name, show component and flag value,
`updateTopicComponentStatus` is a value-level no-op when the name has no
config; otherwise it changes only the named show-flag of that one source,
leaving that source's `enabled` flag, its other two show-flags, every other
source's config, and the global displaySettings unchanged. -/
theorem updateTopicComponentStatus_frame (state : PanelState) (topicName : String)
    (component : ShowComponent) (enabled : Bool) :
    (alookup state.topics topicName = none →
      updateTopicComponentStatus state topicName component enabled = state)
    ∧ (∀ cfg, alookup state.topics topicName = some cfg →
        (updateTopicComponentStatus state topicName component enabled).displaySettings
            = state.displaySettings
        ∧ alookup (updateTopicComponentStatus state topicName component enabled).topics
            topicName = some (setShow cfg component enabled)
        ∧ getShow (setShow cfg component enabled) component = enabled
        ∧ (setShow cfg component enabled).enabled = cfg.enabled
        ∧ (∀ c, c ≠ component →
            getShow (setShow cfg component enabled) c = getShow cfg c)
        ∧ (∀ k, k ≠ topicName →
            alookup (updateTopicComponentStatus state topicName component enabled).topics k
              = alookup state.topics k)) := by
  constructor
  · intro h
    simp [updateTopicComponentStatus, h]
  · intro cfg h
    refine ⟨?_, ?_, ?_, ?_, ?_, ?_⟩
    · simp [updateTopicComponentStatus, h]
    · simp [updateTopicComponentStatus, h, alookup_aset_self]
    · cases component <;> rfl
    · cases component <;> rfl
    · intro c hc
      cases component <;> cases c <;> first | rfl | exact absurd rfl hc
    · intro k hk
      simp only [updateTopicComponentStatus, h]
      exact alookup_aset_ne state.topics topicName k _ (fun hh => hk hh.symm)

/-- Witness for C7 at concrete inputs: an unknown name is a no-op, and on a
known name only the requested flag changes. -/
theorem updateTopicComponentStatus_frame_witness :
    updateTopicComponentStatus imuOnState "odom" ShowComponent.showRoll false = imuOnState
    ∧ alookup (updateTopicComponentStatus imuOnState "imu"
        ShowComponent.showPitch false).topics "imu"
      = some (setShow allOnConfig ShowComponent.showPitch false) :=
  ⟨(updateTopicComponentStatus_frame imuOnState "odom" ShowComponent.showRoll false).1
      (by decide),
   ((updateTopicComponentStatus_frame imuOnState "imu" ShowComponent.showPitch false).2
      allOnConfig (by decide)).2.1⟩

/-! ## Claim C8: updateTopicStatus upsert -/

/-- Claim C8: `updateTopicStatus` upserts the config for the name with the
given enabled value, preserving existing show-flags and defaulting them to
true for a previously unseen source; other sources' configs and the
displaySettings are unchanged, and no config is ever deleted.  (The Lean
embedding is a pure function returning a new value, like the reducer.) -/
theorem updateTopicStatus_upsert (state : PanelState) (topicName : String)
    (enabled : Bool) :
    (updateTopicStatus state topicName enabled).displaySettings = state.displaySettings
    ∧ (alookup state.topics topicName = none →
        alookup (updateTopicStatus state topicName enabled).topics topicName
          = some { enabled := enabled, showRoll := true, showPitch := true,
                   showYaw := true })
    ∧ (∀ cfg, alookup state.topics topicName = some cfg →
        alookup (updateTopicStatus state topicName enabled).topics topicName
          = some { enabled := enabled, showRoll := cfg.showRoll,
                   showPitch := cfg.showPitch, showYaw := cfg.showYaw })
    ∧ (∀ k, k ≠ topicName →
        alookup (updateTopicStatus state topicName enabled).topics k
          = alookup state.topics k)
    ∧ (∀ k, (alookup state.topics k).isSome = true →
        (alookup (updateTopicStatus state topicName enabled).topics k).isSome = true) := by
  refine ⟨rfl, ?_, ?_, ?_, ?_⟩
  · intro h
    simp [updateTopicStatus, h, alookup_aset_self]
  · intro cfg h
    simp [updateTopicStatus, h, alookup_aset_self]
  · intro k hk
    simp only [updateTopicStatus]
    exact alookup_aset_ne state.topics topicName k _ (fun hh => hk hh.symm)
  · intro k hk
    by_cases hkt : k = topicName
    · subst hkt
      simp [updateTopicStatus, alookup_aset_self]
    · simp only [updateTopicStatus]
      rw [alookup_aset_ne state.topics topicName k _ (fun hh => hkt hh.symm)]
      exact hk

/-- Witness for C8 at concrete inputs: enabling an unseen source creates a
config with all show-flags true, and re-toggling an existing source keeps its
customized show-flags. -/
theorem updateTopicStatus_upsert_witness :
    alookup (updateTopicStatus getInitialState "imu" true).topics "imu"
      = some (⟨true, true, true, true⟩ : TopicConfig)
    ∧ alookup (updateTopicStatus imuCustomState "imu" false).topics "imu"
      = some (⟨false, false, true, false⟩ : TopicConfig) :=
  ⟨(updateTopicStatus_upsert getInitialState "imu" true).2.1 (by decide),
   (updateTopicStatus_upsert imuCustomState "imu" false).2.2.1 customConfig (by decide)⟩

/-! ## Claim C5: panel-state initialization merge -/

/-- Counterexample to claim C5 as stated: restoring a partial configuration
whose `displaySettings` holds only `rollEnabled` does NOT produce a deep merge
over the defaults — the saved partial `displaySettings` object replaces the
default wholesale, so `pitchEnabled` is left undefined in the built state,
while the deep merge demanded by the claim would define it. -/
theorem initPanelState_cex :
    ((initPanelState (some partialSaved)).displaySettings.bind
      (fun d => d.pitchEnabled)) = none
    ∧ initPanelState (some partialSaved) ≠ specDeepMergedInit (some partialSaved) := by
  decide

/-- Claim C5, amended: the state built at initialization is a SHALLOW merge of
the partial persisted state over the defaults: both top-level keys are always
present, the topics mapping holds exactly the saved entries (one-level merge
over the empty default), and `displaySettings` is the saved object taken
wholesale when present — its missing booleans stay undefined — or the
fully-defined default when absent.  Initialization never crashes (the
initializer is total). -/
theorem initPanelState_shallow_merge (savedState : Option PartialPanelState) :
    (initPanelState savedState).topics
        = some ((savedState.bind (fun s => s.topics)).getD [])
    ∧ (∀ ds, savedState.bind (fun s => s.displaySettings) = some ds →
        (initPanelState savedState).displaySettings = some ds)
    ∧ (savedState.bind (fun s => s.displaySettings) = none →
        (initPanelState savedState).displaySettings = some initialDisplaySettingsP) := by
  refine ⟨rfl, ?_, ?_⟩
  · intro ds h
    simp [initPanelState, h]
  · intro h
    simp [initPanelState, h]

/-- Witness for C5 (amended) at concrete inputs: a missing persisted state
yields the fully-defined defaults, and a present partial displaySettings is
taken wholesale. -/
theorem initPanelState_shallow_merge_witness :
    (initPanelState none).displaySettings = some initialDisplaySettingsP
    ∧ (initPanelState (some partialSaved)).displaySettings
      = some (⟨some true, none, none⟩ : PartialDisplaySettings) :=
  ⟨(initPanelState_shallow_merge none).2.2 rfl,
   (initPanelState_shallow_merge (some partialSaved)).2.1 ⟨some true, none, none⟩ rfl⟩

/-! ## Claim C9: buildSettingsTree totality -/

/-- The settings node `buildTopicNode` produces for a given name when
`state.topics` is present; it depends only on the name and the topics map. -/
def nodeForName (tmap : List (String × PartialTopicConfig)) (name : String) :
    SettingsTopicNode :=
  let isEnabled := ((alookup tmap name).bind (fun c => c.enabled)).getD false
  { label := name,
    visible := isEnabled,
    topicSettings :=
      if isEnabled then
        some
          { showRoll := ((alookup tmap name).bind (fun c => c.showRoll)).getD true,
            showPitch := ((alookup tmap name).bind (fun c => c.showPitch)).getD true,
            showYaw := ((alookup tmap name).bind (fun c => c.showYaw)).getD true }
      else none }

theorem buildTopicNode_ok (tmap : List (String × PartialTopicConfig))
    (dsOpt : Option PartialDisplaySettings) (t : Topic) :
    buildTopicNode ⟨some tmap, dsOpt⟩ t = Except.ok (nodeForName tmap t.name) := rfl

theorem buildTopicNodesLoop_spec (tmap : List (String × PartialTopicConfig))
    (dsOpt : Option PartialDisplaySettings) :
    ∀ (cands : List Topic) (acc : List (String × SettingsTopicNode)),
      ∃ nodes, buildTopicNodesLoop ⟨some tmap, dsOpt⟩ cands acc = Except.ok nodes
        ∧ (∀ t, t ∈ cands → alookup nodes t.name = some (nodeForName tmap t.name))
        ∧ (∀ k, (∀ t, t ∈ cands → t.name ≠ k) → alookup nodes k = alookup acc k)
  | [], acc => ⟨acc, rfl, by simp, fun _ _ => rfl⟩
  | t :: rest, acc => by
    obtain ⟨nodes, hok, hmem, hother⟩ :=
      buildTopicNodesLoop_spec tmap dsOpt rest (aset acc t.name (nodeForName tmap t.name))
    refine ⟨nodes, ?_, ?_, ?_⟩
    · simpa [buildTopicNodesLoop, buildTopicNode_ok] using hok
    · intro t' ht'
      rcases List.mem_cons.mp ht' with h | h
      · subst h
        by_cases hr : ∃ t'', t'' ∈ rest ∧ t''.name = t'.name
        · obtain ⟨t'', ht'', hname⟩ := hr
          have hh := hmem t'' ht''
          rw [hname] at hh
          exact hh
        · push_neg at hr
          rw [hother t'.name (fun t'' ht'' => hr t'' ht'')]
          exact alookup_aset_self acc t'.name _
      · exact hmem t' h
    · intro k hk
      rw [hother k (fun t'' ht'' => hk t'' (List.mem_cons_of_mem _ ht''))]
      exact alookup_aset_ne acc t.name k _ (hk t (List.mem_cons_self _ _))

/-- Counterexample to claim C9 as stated: on a state whose `displaySettings`
key is absent — a shape the claim explicitly includes — `buildSettingsTree`
throws a TypeError reading `state.displaySettings.rollEnabled` instead of
returning a tree. -/
theorem buildSettingsTree_cex :
    buildSettingsTree ⟨some [], none⟩ [] = Except.error () := rfl

/-- Claim C9, amended: `buildSettingsTree` is pure, and total provided the
state's `topics` and `displaySettings` keys are present as objects (their
inner fields may be arbitrarily partial); the per-entry accesses are
defensively defaulted: each candidate node's visibility equals the source's
enabled flag (defaulting to false when no SourceConfig exists, in which case
the node is not visible and carries no child fields), and the child show-flag
fields default to true when missing from the SourceConfig.  When
`displaySettings` is absent the function throws. -/
theorem buildSettingsTree_total (tmap : List (String × PartialTopicConfig))
    (ds : PartialDisplaySettings) (cands : List Topic) :
    ∃ tree, buildSettingsTree ⟨some tmap, some ds⟩ cands = Except.ok tree
      ∧ tree.rollEnabledValue = ds.rollEnabled
      ∧ tree.pitchEnabledValue = ds.pitchEnabled
      ∧ tree.yawEnabledValue = ds.yawEnabled
      ∧ (∀ t, t ∈ cands →
          alookup tree.topicNodes t.name = some (nodeForName tmap t.name))
      ∧ (∀ name, (nodeForName tmap name).visible
            = ((alookup tmap name).bind (fun c => c.enabled)).getD false)
      ∧ (∀ name, alookup tmap name = none → (nodeForName tmap name).visible = false)
      ∧ (∀ name, (nodeForName tmap name).visible = true →
          (nodeForName tmap name).topicSettings
            = some ⟨((alookup tmap name).bind (fun c => c.showRoll)).getD true,
                    ((alookup tmap name).bind (fun c => c.showPitch)).getD true,
                    ((alookup tmap name).bind (fun c => c.showYaw)).getD true⟩)
      ∧ (∀ name, (nodeForName tmap name).visible = false →
          (nodeForName tmap name).topicSettings = none) := by
  obtain ⟨nodes, hok, hmem, _⟩ := buildTopicNodesLoop_spec tmap (some ds) cands []
  refine ⟨⟨ds.rollEnabled, ds.pitchEnabled, ds.yawEnabled, nodes⟩,
    ?_, rfl, rfl, rfl, hmem, ?_, ?_, ?_, ?_⟩
  · simp [buildSettingsTree, hok]
  · intro name
    rfl
  · intro name h
    simp [nodeForName, h]
  · intro name h
    simp only [nodeForName] at h ⊢
    simp [h]
  · intro name h
    simp only [nodeForName] at h ⊢
    simp [h]

/-- The "imu" candidate topic. -/
def candImu : Topic := ⟨"imu", "sensor_msgs/Imu"⟩

/-- A partial topics map: "imu" enabled, with showPitch false and the other
show-flags missing. -/
def partialTopicsW : List (String × PartialTopicConfig) :=
  [("imu", ⟨some true, none, some false, none⟩)]

/-- A partial displaySettings: yawEnabled missing. -/
def partialDSW : PartialDisplaySettings := ⟨some true, some false, none⟩

/-- Witness for C9 (amended) at a concrete partial state. -/
theorem buildSettingsTree_total_witness :
    (buildSettingsTree ⟨some partialTopicsW, some partialDSW⟩ [candImu]).map
        (fun tree => alookup tree.topicNodes "imu")
      = Except.ok (some (nodeForName partialTopicsW "imu")) := by
  obtain ⟨tree, hok, _, _, _, hmem, _, _, _, _⟩ :=
    buildSettingsTree_total partialTopicsW partialDSW [candImu]
  rw [hok]
  have hh := hmem candImu (List.mem_singleton_self _)
  simp only [Except.map]
  exact congrArg Except.ok hh

/-! ## Claim C6: invalid quaternions -/

theorem euler_zero_of_bad_w (q : QuatView) (h : q.w.isNum = false) :
    quaternionToEuler (some q) = ⟨some 0, some 0, some 0⟩ := by
  obtain ⟨x, y, z, w⟩ := q
  cases w with
  | undef => rfl
  | num r => exact absurd h (by simp [JSField.isNum])
  | nonNum => rfl

/-- Claim C6: for every input whose `w` is missing or non-numeric (including a
null/undefined quaternion), `quaternionToEuler` returns exactly
`{roll: 0, pitch: 0, yaw: 0}` and its `console.warn` diagnostic fires; the
embedding is a total function, so malformed input is never propagated as a
failure. -/
theorem quaternionToEuler_invalid (q : Option QuatView)
    (h : ∀ v, q = some v → v.w.isNum = false) :
    quaternionToEuler q = ⟨some 0, some 0, some 0⟩
    ∧ quaternionToEulerWarns q = true := by
  cases q with
  | none => exact ⟨rfl, rfl⟩
  | some v =>
    have hv := h v rfl
    refine ⟨euler_zero_of_bad_w v hv, ?_⟩
    simp [quaternionToEulerWarns, hv]

/-- Witness for C6 at a concrete quaternion with a non-numeric `w`. -/
theorem quaternionToEuler_invalid_witness :
    quaternionToEuler (some ⟨JSField.num 0, JSField.num 0, JSField.num 0, JSField.nonNum⟩)
      = ⟨some 0, some 0, some 0⟩
    ∧ quaternionToEulerWarns
        (some ⟨JSField.num 0, JSField.num 0, JSField.num 0, JSField.nonNum⟩) = true :=
  quaternionToEuler_invalid
    (some ⟨JSField.num 0, JSField.num 0, JSField.num 0, JSField.nonNum⟩)
    (fun v hv => by cases hv; rfl)

/-! ## Claim C3: the Euler formulas -/

theorem atan2_zero_one : atan2 0 1 = 0 := by
  simp [atan2]

/-- Claim C3: for every quaternion with numeric components, `quaternionToEuler`
computes roll = atan2(2(wx+yz), 1-2(x²+y²)) in degrees, yaw =
atan2(2(wz+xy), 1-2(y²+z²)) in degrees, and pitch from s = 2(wy-zx) as
sign(s)·90° when |s| ≥ 1 (boundary inclusive) and asin(s) in degrees
otherwise; in particular the identity quaternion maps to all-zero angles. -/
theorem quaternionToEuler_formulas :
    (∀ x y z w : ℝ,
      quaternionToEuler
          (some ⟨JSField.num x, JSField.num y, JSField.num z, JSField.num w⟩)
        = { roll := some (atan2 (2 * (w * x + y * z)) (1 - 2 * (x ^ 2 + y ^ 2))
              * (180 / Real.pi)),
            pitch := some (if 1 ≤ |2 * (w * y - z * x)| then
                Real.sign (2 * (w * y - z * x)) * 90
              else Real.arcsin (2 * (w * y - z * x)) * (180 / Real.pi)),
            yaw := some (atan2 (2 * (w * z + x * y)) (1 - 2 * (y ^ 2 + z ^ 2))
              * (180 / Real.pi)) })
    ∧ quaternionToEuler
        (some ⟨JSField.num 0, JSField.num 0, JSField.num 0, JSField.num 1⟩)
        = { roll := some 0, pitch := some 0, yaw := some 0 } := by
  have hpi : Real.pi ≠ 0 := Real.pi_ne_zero
  have hmain : ∀ x y z w : ℝ,
      quaternionToEuler
          (some ⟨JSField.num x, JSField.num y, JSField.num z, JSField.num w⟩)
        = { roll := some (atan2 (2 * (w * x + y * z)) (1 - 2 * (x ^ 2 + y ^ 2))
              * (180 / Real.pi)),
            pitch := some (if 1 ≤ |2 * (w * y - z * x)| then
                Real.sign (2 * (w * y - z * x)) * 90
              else Real.arcsin (2 * (w * y - z * x)) * (180 / Real.pi)),
            yaw := some (atan2 (2 * (w * z + x * y)) (1 - 2 * (y ^ 2 + z ^ 2))
              * (180 / Real.pi)) } := by
    intro x y z w
    simp only [quaternionToEuler, jnum, oadd, osub, omul, oatan2, oasin, osign, absGeOne]
    split_ifs with hc
    · simp only [omul, Orientation.mk.injEq, Option.some.injEq]
      refine ⟨?_, ?_, ?_⟩
      · ring_nf
      · field_simp
        ring
      · ring_nf
    · simp only [omul, Orientation.mk.injEq, Option.some.injEq]
      refine ⟨?_, ?_, ?_⟩
      · ring_nf
      · trivial
      · ring_nf
  refine ⟨hmain, ?_⟩
  rw [hmain 0 0 0 1]
  norm_num [atan2_zero_one, Real.arcsin_zero, Orientation.mk.injEq]

/-! ## Claim C2: extractor priority -/

/-- A message whose own `x, y, z, w` are all defined but none of them numeric
(e.g. strings), which also carries a valid `orientation` field. -/
def overlapBareMsg : JSMessage :=
  ⟨JSField.nonNum, JSField.nonNum, JSField.nonNum, JSField.nonNum,
   some ⟨JSField.num 0, JSField.num 0, JSField.num 0, JSField.num 1⟩,
   none, none, none⟩

/-- Counterexample to claim C2 as stated: shape 1 of the code tests
`!== undefined`, not numeric-ness.  On a message whose `x, y, z, w` are all
defined but non-numeric and which also has an `orientation` field, the code
returns the message itself (with non-numeric components), not the
`orientation` field that the claim's "numeric x, y, z, w" shape-1 condition
would select. -/
theorem extractQuaternion_cex :
    extractQuaternion (some overlapBareMsg)
      = some ⟨JSField.nonNum, JSField.nonNum, JSField.nonNum, JSField.nonNum⟩
    ∧ extractQuaternion (some overlapBareMsg)
      ≠ some ⟨JSField.num 0, JSField.num 0, JSField.num 0, JSField.num 1⟩ := by
  refine ⟨rfl, ?_⟩
  intro h
  rw [show extractQuaternion (some overlapBareMsg)
        = some ⟨JSField.nonNum, JSField.nonNum, JSField.nonNum, JSField.nonNum⟩
      from rfl] at h
  have hx := congrArg
    (fun o => ((o.getD ⟨JSField.undef, JSField.undef, JSField.undef, JSField.undef⟩).w).isNum) h
  simp [JSField.isNum] at hx

/-- Claim C2, amended: `extractQuaternion` implements the fixed six-shape
priority list and returns the first match, where shape 1 triggers when the
message's own `x, y, z, w` fields are all DEFINED (`!== undefined`, any type),
not necessarily numeric; shapes 2-6 are the `orientation`,
`pose.orientation`, `pose.pose.orientation`, `rotation` and
`transform.rotation` fields, earlier shapes winning; with no match the result
is `none`, and the embedding is total (never raises). -/
theorem extractQuaternion_priority (msg : JSMessage) :
    extractQuaternion none = none
    ∧ ((msg.x.isDef && msg.y.isDef && msg.z.isDef && msg.w.isDef) = true →
        extractQuaternion (some msg) = some ⟨msg.x, msg.y, msg.z, msg.w⟩)
    ∧ (∀ q, (msg.x.isDef && msg.y.isDef && msg.z.isDef && msg.w.isDef) = false →
        msg.orientation = some q →
        extractQuaternion (some msg) = some q)
    ∧ (∀ q, (msg.x.isDef && msg.y.isDef && msg.z.isDef && msg.w.isDef) = false →
        msg.orientation = none →
        msg.pose.bind (fun p => p.orientation) = some q →
        extractQuaternion (some msg) = some q)
    ∧ (∀ q, (msg.x.isDef && msg.y.isDef && msg.z.isDef && msg.w.isDef) = false →
        msg.orientation = none →
        msg.pose.bind (fun p => p.orientation) = none →
        (msg.pose.bind (fun p => p.pose)).bind (fun pp => pp.orientation) = some q →
        extractQuaternion (some msg) = some q)
    ∧ (∀ q, (msg.x.isDef && msg.y.isDef && msg.z.isDef && msg.w.isDef) = false →
        msg.orientation = none →
        msg.pose.bind (fun p => p.orientation) = none →
        (msg.pose.bind (fun p => p.pose)).bind (fun pp => pp.orientation) = none →
        msg.rotation = some q →
        extractQuaternion (some msg) = some q)
    ∧ (∀ q, (msg.x.isDef && msg.y.isDef && msg.z.isDef && msg.w.isDef) = false →
        msg.orientation = none →
        msg.pose.bind (fun p => p.orientation) = none →
        (msg.pose.bind (fun p => p.pose)).bind (fun pp => pp.orientation) = none →
        msg.rotation = none →
        msg.transform.bind (fun t => t.rotation) = some q →
        extractQuaternion (some msg) = some q)
    ∧ ((msg.x.isDef && msg.y.isDef && msg.z.isDef && msg.w.isDef) = false →
        msg.orientation = none →
        msg.pose.bind (fun p => p.orientation) = none →
        (msg.pose.bind (fun p => p.pose)).bind (fun pp => pp.orientation) = none →
        msg.rotation = none →
        msg.transform.bind (fun t => t.rotation) = none →
        extractQuaternion (some msg) = none) := by
  refine ⟨rfl, ?_, ?_, ?_, ?_, ?_, ?_, ?_⟩
  · intro hbare
    simp [extractQuaternion, hbare]
  · intro q hbare h2
    simp [extractQuaternion, hbare, h2]
  · intro q hbare h2 h3
    simp [extractQuaternion, hbare, h2, h3]
  · intro q hbare h2 h3 h4
    simp [extractQuaternion, hbare, h2, h3, h4]
  · intro q hbare h2 h3 h4 h5
    simp [extractQuaternion, hbare, h2, h3, h4, h5]
  · intro q hbare h2 h3 h4 h5 h6
    simp [extractQuaternion, hbare, h2, h3, h4, h5, h6]
  · intro hbare h2 h3 h4 h5 h6
    simp [extractQuaternion, hbare, h2, h3, h4, h5, h6]

/-- A message carrying both an `orientation` field and a `pose.orientation`
field (and no bare quaternion fields of its own). -/
def overlapPoseMsg : JSMessage :=
  ⟨JSField.undef, JSField.undef, JSField.undef, JSField.undef,
   some ⟨JSField.num 0, JSField.num 0, JSField.num 0, JSField.num 1⟩,
   some ⟨some ⟨JSField.num 1, JSField.num 0, JSField.num 0, JSField.num 0⟩, none⟩,
   none, none⟩

/-- Witness for C2 (amended): on a message satisfying both shape 2 and
shape 3, shape 2 (`orientation`) wins. -/
theorem extractQuaternion_priority_witness :
    extractQuaternion (some overlapPoseMsg)
      = some ⟨JSField.num 0, JSField.num 0, JSField.num 0, JSField.num 1⟩ :=
  (extractQuaternion_priority overlapPoseMsg).2.2.1
    ⟨JSField.num 0, JSField.num 0, JSField.num 0, JSField.num 1⟩ rfl rfl

/-! ## Claim C1: the display-index cap of the visual refresh -/

/-- The cache keys that the render loop considers drawable: entries whose
topic has an enabled config, in cache iteration order. -/
def enabledKeys (topics : List (String × TopicConfig))
    (orientations : List (String × Orientation)) : List String :=
  (orientations.filter
    (fun p => ((alookup topics p.1).map (fun c => c.enabled)).getD false)).map
    (fun p => p.1)

theorem renderAssignLoop_at_cap (topics : List (String × TopicConfig)) :
    ∀ (o : List (String × Orientation)) (idx : Nat), MAX_TOPICS ≤ idx →
      renderAssignLoop topics o idx = []
  | [], _, _ => rfl
  | (name, ori) :: rest, idx, h => by
    simp only [renderAssignLoop, if_pos h]
    exact renderAssignLoop_at_cap topics rest idx h

theorem renderAssignLoop_names (topics : List (String × TopicConfig)) :
    ∀ (o : List (String × Orientation)) (idx : Nat),
      (renderAssignLoop topics o idx).map (fun d => d.topicName)
        = (enabledKeys topics o).take (MAX_TOPICS - idx)
  | [], idx => by simp [renderAssignLoop, enabledKeys]
  | (name, ori) :: rest, idx => by
    by_cases hcap : MAX_TOPICS ≤ idx
    · rw [renderAssignLoop_at_cap topics ((name, ori) :: rest) idx hcap]
      have h0 : MAX_TOPICS - idx = 0 := Nat.sub_eq_zero_of_le hcap
      simp [h0]
    · cases hlk : alookup topics name with
      | none =>
        simp only [renderAssignLoop, if_neg hcap, hlk]
        rw [renderAssignLoop_names topics rest idx]
        simp [enabledKeys, hlk]
      | some cfg =>
        by_cases hen : cfg.enabled
        · simp only [renderAssignLoop, if_neg hcap, hlk, hen, if_pos, List.map_cons]
          rw [renderAssignLoop_names topics rest (idx + 1)]
          have hidx : MAX_TOPICS - idx = (MAX_TOPICS - (idx + 1)) + 1 := by
            simp only [MAX_TOPICS] at hcap ⊢
            omega
          simp [enabledKeys, hlk, hen, hidx]
        · simp only [renderAssignLoop, if_neg hcap, hlk]
          rw [if_neg (by simp [hen])]
          rw [renderAssignLoop_names topics rest idx]
          simp [enabledKeys, hlk, hen]

theorem renderAssignLoop_fields (topics : List (String × TopicConfig)) :
    ∀ (o : List (String × Orientation)) (idx : Nat) (j : Nat) (d : DrawnSource),
      (renderAssignLoop topics o idx).get? j = some d →
      d.displayIndex = idx + j
      ∧ d.colorValue = messageColors.get? (idx + j)
      ∧ d.colorClass = colorClasses.get? (idx + j)
  | [], idx, j, d => by
    intro h
    simp [renderAssignLoop] at h
  | (name, ori) :: rest, idx, j, d => by
    intro h
    by_cases hcap : MAX_TOPICS ≤ idx
    · rw [renderAssignLoop_at_cap topics ((name, ori) :: rest) idx hcap] at h
      simp at h
    · cases hlk : alookup topics name with
      | none =>
        simp only [renderAssignLoop, if_neg hcap, hlk] at h
        exact renderAssignLoop_fields topics rest idx j d h
      | some cfg =>
        by_cases hen : cfg.enabled
        · simp only [renderAssignLoop, if_neg hcap, hlk, hen, if_pos] at h
          cases j with
          | zero =>
            simp only [List.get?] at h
            cases h
            exact ⟨rfl, rfl, rfl⟩
          | succ jj =>
            simp only [List.get?] at h
            have hres := renderAssignLoop_fields topics rest (idx + 1) jj d h
            have harith : idx + 1 + jj = idx + (jj + 1) := by omega
            rw [harith] at hres
            exact hres
        · simp only [renderAssignLoop, if_neg hcap, hlk] at h
          rw [if_neg (by simp [hen])] at h
          exact renderAssignLoop_fields topics rest idx j d h

/-- Claim C1, amended: the visual refresh assigns display indices 0..8 to at
most 9 enabled sources in cache iteration order; when `MAX_TOPICS` (9) or
more enabled sources have cached orientations, exactly 9 of them receive a
display index and every further source is skipped without error (the cache is
untouched, the source is just not drawn).  The palette lookups use the
8-entry `CONFIG.messageColors` / `CONFIG.colorClasses` arrays, so the sources
at indices 0..7 receive a color while the source at index 8 gets `undefined`
for both color value and class. -/
theorem renderIndicatorAssignments_cap (orientations : List (String × Orientation))
    (topics : List (String × TopicConfig)) :
    (renderIndicatorAssignments orientations topics).length ≤ MAX_TOPICS
    ∧ (renderIndicatorAssignments orientations topics).map (fun d => d.topicName)
        = (enabledKeys topics orientations).take MAX_TOPICS
    ∧ (MAX_TOPICS ≤ (enabledKeys topics orientations).length →
        (renderIndicatorAssignments orientations topics).length = MAX_TOPICS)
    ∧ (∀ j d, (renderIndicatorAssignments orientations topics).get? j = some d →
        d.displayIndex = j
        ∧ d.colorValue = messageColors.get? j
        ∧ d.colorClass = colorClasses.get? j
        ∧ (j < 8 → d.colorValue.isSome = true)
        ∧ (j = 8 → d.colorValue = none)) := by
  have hnames := renderAssignLoop_names topics orientations 0
  have hlen : (renderIndicatorAssignments orientations topics).length
      = min MAX_TOPICS (enabledKeys topics orientations).length := by
    have := congrArg List.length hnames
    simpa [renderIndicatorAssignments] using this
  refine ⟨?_, ?_, ?_, ?_⟩
  · rw [hlen]
    exact Nat.min_le_left _ _
  · simpa [renderIndicatorAssignments] using hnames
  · intro hge
    rw [hlen]
    exact Nat.min_eq_left hge
  · intro j d hd
    obtain ⟨h1, h2, h3⟩ :=
      renderAssignLoop_fields topics orientations 0 j d hd
    rw [Nat.zero_add] at h1 h2 h3
    refine ⟨h1, h2, h3, ?_, ?_⟩
    · intro hj
      rw [h2]
      have hmem : j < messageColors.length := by
        have : messageColors.length = 8 := by decide
        omega
      rw [List.get?_eq_get hmem]
      rfl
    · intro hj
      subst hj
      rw [h2]
      decide

/-- Ten enabled topic configs. -/
def cexTopics10 : List (String × TopicConfig) :=
  [("t1", allOnConfig), ("t2", allOnConfig), ("t3", allOnConfig),
   ("t4", allOnConfig), ("t5", allOnConfig), ("t6", allOnConfig),
   ("t7", allOnConfig), ("t8", allOnConfig), ("t9", allOnConfig),
   ("t10", allOnConfig)]

/-- The all-zero Orientation value. -/
def zeroOrientation : Orientation := ⟨some 0, some 0, some 0⟩

/-- An orientation cache with ten entries. -/
def cexCache10 : List (String × Orientation) :=
  [("t1", zeroOrientation), ("t2", zeroOrientation), ("t3", zeroOrientation),
   ("t4", zeroOrientation), ("t5", zeroOrientation), ("t6", zeroOrientation),
   ("t7", zeroOrientation), ("t8", zeroOrientation), ("t9", zeroOrientation),
   ("t10", zeroOrientation)]

/-- Counterexample to claim C1 as stated: with ten enabled cached sources,
exactly nine receive a display index (the tenth is skipped), but the ninth
drawn source (display index 8) does NOT receive a color — the palette has
only eight entries, so its color value and class are `undefined` — refuting
"exactly 9 of them receive a display index and a color". -/
theorem renderIndicatorAssignments_cex :
    ((renderIndicatorAssignments cexCache10 cexTopics10).map (fun d => d.topicName))
      = ["t1", "t2", "t3", "t4", "t5", "t6", "t7", "t8", "t9"]
    ∧ ((renderIndicatorAssignments cexCache10 cexTopics10).map
        (fun d => (d.displayIndex, d.colorValue.isSome, d.colorClass.isSome)))
      = [(0, true, true), (1, true, true), (2, true, true), (3, true, true),
         (4, true, true), (5, true, true), (6, true, true), (7, true, true),
         (8, false, false)] :=
  ⟨rfl, rfl⟩

/-- Witness for C1 (amended): on the ten-source cache the entry at display
index 8 exists and its palette lookups are `undefined`. -/
theorem renderIndicatorAssignments_cap_witness :
    ((renderIndicatorAssignments cexCache10 cexTopics10).get? 8).map
        (fun d => (d.displayIndex, d.colorValue)) = some (8, none) := by
  cases hg : (renderIndicatorAssignments cexCache10 cexTopics10).get? 8 with
  | none =>
    have hlen := (renderIndicatorAssignments_cap cexCache10 cexTopics10).2.2.1 (by decide)
    have hle := List.get?_eq_none.mp hg
    rw [hlen] at hle
    exact absurd hle (by decide)
  | some d =>
    obtain ⟨h1, _, _, _, h5⟩ :=
      (renderIndicatorAssignments_cap cexCache10 cexTopics10).2.2.2 8 d hg
    simp [h1, h5 rfl]

/-! ## Claim C4: disabling purges the caches -/

theorem ahas_nil {α : Type} (k : String) : ahas ([] : List (String × α)) k = false := rfl

theorem ahas_adel {α : Type} (l : List (String × α)) (n k : String)
    (h : ahas (adel l n) k = true) : k ≠ n ∧ ahas l k = true := by
  by_cases hk : k = n
  · subst hk
    rw [ahas, alookup_adel_self] at h
    simp at h
  · rw [ahas, alookup_adel_ne l n k (Ne.symm hk)] at h
    exact ⟨hk, h⟩

theorem enabledIn_updateTopicStatus_self (p : PanelState) (n : String) (b : Bool) :
    enabledIn (updateTopicStatus p n b) n = b := by
  simp [enabledIn, updateTopicStatus, alookup_aset_self]

theorem enabledIn_updateTopicStatus_ne (p : PanelState) (n k : String) (b : Bool)
    (h : k ≠ n) : enabledIn (updateTopicStatus p n b) k = enabledIn p k := by
  simp only [enabledIn, updateTopicStatus]
  rw [alookup_aset_ne p.topics n k _ (fun hh => h hh.symm)]

theorem enabledIn_updateTopicComponentStatus (p : PanelState) (n : String)
    (c : ShowComponent) (b : Bool) (k : String) :
    enabledIn (updateTopicComponentStatus p n c b) k = enabledIn p k := by
  cases hlk : alookup p.topics n with
  | none => simp [updateTopicComponentStatus, hlk]
  | some cfg =>
    by_cases hk : k = n
    · subst hk
      simp only [enabledIn, updateTopicComponentStatus, hlk]
      rw [alookup_aset_self]
      cases c <;> rfl
    · simp only [enabledIn, updateTopicComponentStatus, hlk]
      rw [alookup_aset_ne p.topics n k _ (fun hh => hk hh.symm)]

theorem deliverMessages_cons (p : PanelState) (msgs : List (String × JSVal))
    (e : String × JSVal) (frame : List (String × JSVal)) :
    deliverMessages p msgs (e :: frame)
      = deliverMessages p (if enabledIn p e.1 then aset msgs e.1 e.2 else msgs) frame := rfl

theorem ahas_deliverMessages (p : PanelState) (k : String) :
    ∀ (frame : List (String × JSVal)) (msgs : List (String × JSVal)),
      ahas (deliverMessages p msgs frame) k = true →
      ahas msgs k = true ∨ enabledIn p k = true
  | [], msgs, h => Or.inl h
  | e :: frame, msgs, h => by
    rw [deliverMessages_cons] at h
    rcases ahas_deliverMessages p k frame _ h with hh | hh
    · by_cases hen : enabledIn p e.1 = true
      · rw [if_pos hen] at hh
        rcases (ahas_aset msgs e.1 k e.2).mp hh with he | he
        · subst he
          exact Or.inr hen
        · exact Or.inl he
      · rw [if_neg hen] at hh
        exact Or.inl hh
    · exact Or.inr hh

theorem ahas_deliverMessages_mono (p : PanelState) (k : String) :
    ∀ (frame : List (String × JSVal)) (msgs : List (String × JSVal)),
      ahas msgs k = true → ahas (deliverMessages p msgs frame) k = true
  | [], msgs, h => h
  | e :: frame, msgs, h => by
    rw [deliverMessages_cons]
    refine ahas_deliverMessages_mono p k frame _ ?_
    by_cases hen : enabledIn p e.1 = true
    · rw [if_pos hen]
      exact (ahas_aset msgs e.1 k e.2).mpr (Or.inr h)
    · rw [if_neg hen]
      exact h

theorem processMessages_cons (e : String × JSVal) (msgs : List (String × JSVal))
    (orients : List (String × Orientation)) :
    processMessages (e :: msgs) orients
      = processMessages msgs
          (match extractQuaternion e.2 with
           | none => orients
           | some q => aset orients e.1 (quaternionToEuler (some q))) := rfl

theorem ahas_processMessages (k : String) :
    ∀ (msgs : List (String × JSVal)) (orients : List (String × Orientation)),
      ahas (processMessages msgs orients) k = true →
      ahas orients k = true ∨ k ∈ msgs.map (fun e => e.1)
  | [], orients, h => Or.inl h
  | e :: msgs, orients, h => by
    rw [processMessages_cons] at h
    rcases ahas_processMessages k msgs _ h with hh | hh
    · cases hq : extractQuaternion e.2 with
      | none =>
        rw [hq] at hh
        exact Or.inl hh
      | some q =>
        rw [hq] at hh
        rcases (ahas_aset orients e.1 k _).mp hh with he | he
        · exact Or.inr (by rw [he]; exact List.mem_cons_self _ _)
        · exact Or.inl he
    · exact Or.inr (List.mem_cons_of_mem _ hh)

theorem ahas_iff_mem_keys {α : Type} (k : String) :
    ∀ (l : List (String × α)), ahas l k = true ↔ k ∈ l.map (fun e => e.1)
  | [] => by simp [ahas, alookup]
  | e :: l => by
    by_cases he : e.1 = k
    · simp [ahas, alookup, he]
    · rw [List.map_cons]
      constructor
      · intro h
        simp only [ahas, alookup, if_neg he] at h
        exact List.mem_cons_of_mem _ ((ahas_iff_mem_keys k l).mp h)
      · intro h
        rcases List.mem_cons.mp h with h | h
        · exact absurd h.symm he
        · simp only [ahas, alookup, if_neg he]
          exact (ahas_iff_mem_keys k l).mpr h

/-- The two standing invariants of the caches: every cached message belongs to
an enabled topic, and every cached Orientation has a cached message. -/
def CacheInv (s : CacheState) : Prop :=
  (∀ k, ahas s.messages k = true → enabledIn s.panel k = true)
  ∧ (∀ k, ahas s.orientations k = true → ahas s.messages k = true)

theorem handleTopicEnabledChange_purge (s : CacheState) (n : String)
    (hm : ahas s.messages n = true) :
    handleTopicEnabledChange s n false
      = ⟨updateTopicStatus s.panel n false, adel s.messages n, adel s.orientations n⟩ := by
  simp [handleTopicEnabledChange, hm]

theorem handleTopicEnabledChange_nopurge (s : CacheState) (n : String) (b : Bool)
    (hcond : (!b && ahas s.messages n) = false) :
    handleTopicEnabledChange s n b
      = ⟨updateTopicStatus s.panel n b, s.messages, s.orientations⟩ := by
  simp only [handleTopicEnabledChange, hcond]
  rfl

theorem panelStep_inv {s s' : CacheState} (hstep : PanelStep s s') (hinv : CacheInv s) :
    CacheInv s' := by
  cases hstep with
  | deliver frame =>
    constructor
    · intro k hk
      rcases ahas_deliverMessages s.panel k frame s.messages hk with h | h
      · exact hinv.1 k h
      · exact h
    · intro k hk
      rcases ahas_processMessages k
          (deliverMessages s.panel s.messages frame) s.orientations hk with h | h
      · exact ahas_deliverMessages_mono s.panel k frame s.messages (hinv.2 k h)
      · exact (ahas_iff_mem_keys k _).mpr h
  | toggle n b =>
    by_cases hcond : (!b && ahas s.messages n) = true
    · have hb : b = false := by
        cases b
        · rfl
        · simp at hcond
      have hm : ahas s.messages n = true := by
        cases hmm : ahas s.messages n
        · rw [hmm] at hcond
          simp at hcond
        · rfl
      subst hb
      rw [handleTopicEnabledChange_purge s n hm]
      constructor
      · intro k hk
        obtain ⟨hkn, hkm⟩ := ahas_adel s.messages n k hk
        rw [enabledIn_updateTopicStatus_ne s.panel n k false hkn]
        exact hinv.1 k hkm
      · intro k hk
        obtain ⟨hkn, hko⟩ := ahas_adel s.orientations n k hk
        rw [ahas, alookup_adel_ne s.messages n k (Ne.symm hkn)]
        exact hinv.2 k hko
    · have hcond' : (!b && ahas s.messages n) = false := by
        cases hc : (!b && ahas s.messages n)
        · rfl
        · exact absurd hc hcond
      rw [handleTopicEnabledChange_nopurge s n b hcond']
      constructor
      · intro k hk
        by_cases hkn : k = n
        · subst hkn
          have hb : b = true := by
            cases b
            · rw [hk] at hcond'
              simp at hcond'
            · rfl
          subst hb
          exact enabledIn_updateTopicStatus_self s.panel k true
        · rw [enabledIn_updateTopicStatus_ne s.panel n k b hkn]
          exact hinv.1 k hk
      · exact hinv.2
  | component n c b =>
    constructor
    · intro k hk
      rw [enabledIn_updateTopicComponentStatus s.panel n c b k]
      exact hinv.1 k hk
    · exact hinv.2
  | display c b =>
    exact ⟨fun k hk => hinv.1 k hk, hinv.2⟩

theorem reachable_inv (s : CacheState) (hs : Reachable s) : CacheInv s := by
  induction hs with
  | init panel =>
    constructor
    · intro k hk
      rw [ahas_nil] at hk
      exact absurd hk (by simp)
    · intro k hk
      rw [ahas_nil] at hk
      exact absurd hk (by simp)
  | step hr hstep ih => exact panelStep_inv hstep ih

/-- Claim C4: for every reachable cache state, the disable step for a topic
synchronously leaves no Orientation entry and no message entry for it (in
particular a cached Orientation is purged without requiring further
messages); moreover in every reachable state an Orientation entry exists only
for topics whose config is enabled, so no reachable state has an Orientation
entry for a non-enabled source. -/
theorem disable_purges (s : CacheState) (hs : Reachable s) (topicName : String) :
    alookup (handleTopicEnabledChange s topicName false).orientations topicName = none
    ∧ alookup (handleTopicEnabledChange s topicName false).messages topicName = none
    ∧ (∀ k, ahas s.orientations k = true → enabledIn s.panel k = true) := by
  have hinv := reachable_inv s hs
  by_cases hm : ahas s.messages topicName = true
  · rw [handleTopicEnabledChange_purge s topicName hm]
    exact ⟨alookup_adel_self _ _, alookup_adel_self _ _,
      fun k hk => hinv.1 k (hinv.2 k hk)⟩
  · have hm' : ahas s.messages topicName = false := by
      cases hc : ahas s.messages topicName
      · rfl
      · exact absurd hc hm
    rw [handleTopicEnabledChange_nopurge s topicName false (by simp [hm'])]
    refine ⟨?_, alookup_none_of_ahas_false _ _ hm', fun k hk => hinv.1 k (hinv.2 k hk)⟩
    have ho : ahas s.orientations topicName = false := by
      cases hc : ahas s.orientations topicName
      · rfl
      · exact absurd (hinv.2 topicName hc) (by rw [hm']; simp)
    exact alookup_none_of_ahas_false _ _ ho

/-- A bare-quaternion identity message. -/
def bareQuatMsg : JSMessage :=
  ⟨JSField.num 0, JSField.num 0, JSField.num 0, JSField.num 1, none, none, none, none⟩

/-- Witness for C4: starting from the restored panel with "imu" enabled and
empty caches, deliver one valid message (so an Orientation is cached), then
disable "imu": the Orientation and message entries are gone. -/
theorem disable_purges_witness :
    ahas (stepDeliver ⟨imuOnState, [], []⟩ [("imu", some bareQuatMsg)]).orientations
      "imu" = true
    ∧ alookup (handleTopicEnabledChange
        (stepDeliver ⟨imuOnState, [], []⟩ [("imu", some bareQuatMsg)]) "imu"
        false).orientations "imu" = none :=
  ⟨rfl,
   (disable_purges (stepDeliver ⟨imuOnState, [], []⟩ [("imu", some bareQuatMsg)])
      (Reachable.step (Reachable.init imuOnState)
        (PanelStep.deliver ⟨imuOnState, [], []⟩ [("imu", some bareQuatMsg)]))
      "imu").1⟩

/-! ## Claim C10: truthy but invalid orientation fields overwrite the cache -/

theorem alookup_processMessages_not_mem (k : String) :
    ∀ (msgs : List (String × JSVal)) (orients : List (String × Orientation)),
      k ∉ msgs.map (fun e => e.1) →
      alookup (processMessages msgs orients) k = alookup orients k
  | [], orients, _ => rfl
  | e :: msgs, orients, h => by
    rw [processMessages_cons]
    have hk : k ∉ msgs.map (fun e => e.1) :=
      fun hh => h (List.mem_cons_of_mem _ hh)
    have hek : e.1 ≠ k := by
      intro hh
      exact h (by rw [← hh]; exact List.mem_cons_self _ _)
    rw [alookup_processMessages_not_mem k msgs _ hk]
    cases hq : extractQuaternion e.2 with
    | none => rfl
    | some q => exact alookup_aset_ne orients e.1 k _ hek

theorem alookup_processMessages_of_mem (k : String) (v : JSVal) (q : QuatView) :
    ∀ (msgs : List (String × JSVal)) (orients : List (String × Orientation)),
      (msgs.map (fun e => e.1)).Nodup → (k, v) ∈ msgs →
      extractQuaternion v = some q →
      alookup (processMessages msgs orients) k
        = some (quaternionToEuler (some q))
  | [], _, _, hmem, _ => absurd hmem (List.not_mem_nil _)
  | e :: msgs, orients, hnodup, hmem, hq => by
    rw [List.map_cons, List.nodup_cons] at hnodup
    rcases List.mem_cons.mp hmem with h | h
    · have hknotin : k ∉ msgs.map (fun e => e.1) := by
        rw [← h] at hnodup
        exact hnodup.1
      rw [processMessages_cons, ← h]
      rw [alookup_processMessages_not_mem k msgs _ hknotin]
      simp only [hq]
      exact alookup_aset_self orients k _
    · exact alookup_processMessages_of_mem k v q msgs _ hnodup.2 h hq

/-- A message whose only orientation-bearing content is a truthy `orientation`
field holding the given quaternion view. -/
def orientationOnlyMsg (qv : QuatView) : JSMessage :=
  ⟨JSField.undef, JSField.undef, JSField.undef, JSField.undef, some qv,
   none, none, none⟩

/-- Claim C10: for a message from an enabled source whose `orientation` field
is present and truthy but not a valid quaternion (non-numeric `w`),
extraction succeeds and returns that field, conversion yields all-zero
angles, and the delivery-plus-processing cycle OVERWRITES the source's cached
Orientation with the zero angles, replacing any previously cached value (the
message-key hypothesis reflects that a JS `Map` cannot hold duplicate keys). -/
theorem invalid_orientation_overwrites (s : CacheState) (topicName : String)
    (qv : QuatView)
    (hnodup : (s.messages.map (fun e => e.1)).Nodup)
    (hen : enabledIn s.panel topicName = true)
    (hw : qv.w.isNum = false) :
    extractQuaternion (some (orientationOnlyMsg qv)) = some qv
    ∧ alookup (stepDeliver s
        [(topicName, some (orientationOnlyMsg qv))]).orientations topicName
      = some ⟨some 0, some 0, some 0⟩ := by
  refine ⟨rfl, ?_⟩
  have hmsgs : deliverMessages s.panel s.messages
      [(topicName, some (orientationOnlyMsg qv))]
      = aset s.messages topicName (some (orientationOnlyMsg qv)) := by
    rw [deliverMessages_cons]
    rw [if_pos hen]
    rfl
  have hlk : alookup (stepDeliver s
      [(topicName, some (orientationOnlyMsg qv))]).orientations topicName
      = some (quaternionToEuler (some qv)) := by
    simp only [stepDeliver, hmsgs]
    exact alookup_processMessages_of_mem topicName (some (orientationOnlyMsg qv)) qv
      (aset s.messages topicName (some (orientationOnlyMsg qv))) s.orientations
      (keys_aset_nodup s.messages topicName _ hnodup)
      (mem_aset_self s.messages topicName _)
      rfl
  rw [hlk, euler_zero_of_bad_w qv hw]

/-- A cache state with "imu" enabled, no cached message, and a stale non-zero
Orientation cached for "imu". -/
def staleState : CacheState :=
  ⟨imuOnState, [], [("imu", ⟨some 1, some 2, some 3⟩)]⟩

/-- Witness for C10: delivering `{orientation: {}}` for the enabled "imu"
topic replaces its previously cached non-zero Orientation with the zero
angles. -/
theorem invalid_orientation_overwrites_witness :
    alookup (stepDeliver staleState
        [("imu", some (orientationOnlyMsg
          ⟨JSField.undef, JSField.undef, JSField.undef, JSField.undef⟩))]).orientations
        "imu"
      = some ⟨some 0, some 0, some 0⟩
    ∧ alookup staleState.orientations "imu" = some ⟨some 1, some 2, some 3⟩ :=
  ⟨(invalid_orientation_overwrites staleState "imu"
      ⟨JSField.undef, JSField.undef, JSField.undef, JSField.undef⟩
      (by decide) (by decide) rfl).2,
   rfl⟩

end OrientationPanel2D
